import Mathlib

/-!
# go-ipfs: the `ipfs2` command dispatcher and the migrations HTTP fetcher

A shallow embedding of

* `repo/fsrepo/migrations/httpfetcher.go` (`NewHttpFetcher`, `HttpFetcher.Fetch`), and
* `cmd/ipfs2/main.go` (`main`, `createRequest`, `handleOptions`, `callCommand`,
  `outputResponse`, `writeHeapProfileToFile`, `exit`).

Go strings are modelled as lists of characters.  The functions of the Go standard
library that the code calls on strings (`strings.HasPrefix`, `strings.TrimRight`,
`path.Clean`, `path.Join`) are embedded from their Go sources; they only ever
inspect the ASCII characters `/` and `.`.

Calls that leave the program (the network, the file system, the command library,
the daemon lock) are answered by an explicit environment record, and the effects
of `main.go` are recorded as a trace of events.
-/

set_option linter.unusedVariables false

namespace GoIpfs

/-- A Go string. -/
abbrev GoString := List Char

/-! ## Go standard library: `strings` and `path` -/

/-- Go `strings.HasPrefix`. -/
def HasPrefix (s pre : GoString) : Bool := pre.isPrefixOf s

/-- Go `strings.TrimRight(s, cutset)`: drop every trailing character that is in `cutset`. -/
def TrimRight (s cutset : GoString) : GoString :=
  (s.reverse.dropWhile (fun c => cutset.contains c)).reverse

/-- The inner loop of the `..` case of `path.Clean`:
`for out.w > dotdot && out.index(out.w) != '/' { out.w-- }`. -/
def backtrack (out : GoString) (dotdot : Nat) : Nat → Nat
  | 0 => 0
  | w + 1 =>
    if w + 1 > dotdot && out[w + 1]? != some '/' then backtrack out dotdot w else w + 1

/-- The main loop `for r < n { switch ... }` of Go `path.Clean`.  `r` is the index of the
next byte to read, `out` the buffer written so far (`out.w = out.length`), `dotdot` the
index where `..` must stop.  Every iteration advances `r`, so `n - r` iterations suffice
(see `cleanLoop_fuel`). -/
def cleanLoop (path : GoString) (rooted : Bool) : Nat → Nat → Nat → GoString → GoString
  | 0, _, _, out => out
  | fuel + 1, r, dotdot, out =>
    if r < path.length then
      if path[r]? = some '/' then
        -- empty path element
        cleanLoop path rooted fuel (r + 1) dotdot out
      else if path[r]? = some '.' ∧ (r + 1 = path.length ∨ path[r + 1]? = some '/') then
        -- . element
        cleanLoop path rooted fuel (r + 1) dotdot out
      else if path[r]? = some '.' ∧ path[r + 1]? = some '.' ∧
          (r + 2 = path.length ∨ path[r + 2]? = some '/') then
        -- .. element: remove to last /
        if out.length > dotdot then
          -- can backtrack
          cleanLoop path rooted fuel (r + 2) dotdot
            (out.take (backtrack out dotdot (out.length - 1)))
        else if !rooted then
          -- cannot backtrack, but not rooted, so append .. element.
          let out1 := if out.length > 0 then out ++ ['/'] else out
          let out2 := out1 ++ ['.', '.']
          cleanLoop path rooted fuel (r + 2) out2.length out2
        else
          cleanLoop path rooted fuel (r + 2) dotdot out
      else
        -- real path element: add slash if needed, copy element
        let out1 :=
          if (rooted && out.length != 1) || (!rooted && out.length != 0) then out ++ ['/']
          else out
        let elem := (path.drop r).takeWhile (fun c => c != '/')
        cleanLoop path rooted fuel (r + elem.length) dotdot (out1 ++ elem)
    else out

/-- Go `path.Clean`. -/
def Clean (path : GoString) : GoString :=
  if path = [] then ['.']
  else
    let rooted : Bool := path[0]? = some '/'
    let out :=
      if rooted then cleanLoop path rooted path.length 1 1 ['/']
      else cleanLoop path rooted path.length 0 0 []
    -- Turn empty string into "."
    if out.length = 0 then ['.'] else out

/-- The buffer that Go `path.Join` fills before cleaning: the elements joined by `/`,
leading empty elements skipped. -/
def joinBuf : GoString → List GoString → GoString
  | buf, [] => buf
  | buf, e :: es =>
    if buf.length > 0 ∨ e ≠ [] then
      joinBuf ((if buf.length > 0 then buf ++ ['/'] else buf) ++ e) es
    else joinBuf buf es

/-- Go `path.Join`. -/
def Join (elems : List GoString) : GoString :=
  if (elems.map List.length).sum = 0 then []
  else Clean (joinBuf [] elems)

/-! ## `repo/fsrepo/migrations/httpfetcher.go` -/

def defaultGatewayURL : GoString := "https://ipfs.io".toList

def defaultFetchLimit : Int := 1024 * 1024 * 512

/-- The Go struct `HttpFetcher`. -/
structure HttpFetcher where
  distPath : GoString
  gateway : GoString
  limit : Int
  userAgent : GoString
  deriving DecidableEq, Repr

/-- The Go function `NewHttpFetcher`.  The constant `IpnsIpfsDist` is declared in another file
of the package and is taken as a parameter.  The struct literal leaves the field `userAgent`
at its zero value and no later statement assigns it. -/
def NewHttpFetcher (IpnsIpfsDist : GoString) (distPath gateway userAgent : GoString)
    (fetchLimit : Int) : HttpFetcher :=
  let f : HttpFetcher :=
    { distPath := IpnsIpfsDist, gateway := defaultGatewayURL, limit := defaultFetchLimit,
      userAgent := [] }
  let f :=
    if distPath ≠ [] then
      let distPath := if !HasPrefix distPath ['/'] then ['/'] ++ distPath else distPath
      { f with distPath := distPath }
    else f
  let f :=
    if gateway ≠ [] then { f with gateway := TrimRight gateway ['/'] } else f
  let f :=
    if fetchLimit ≠ 0 then
      let fetchLimit := if fetchLimit = -1 then 0 else fetchLimit
      { f with limit := fetchLimit }
    else f
  f

/-- A response body: what `ioutil.ReadAll` yields when it is read to the end. -/
structure Body where
  readAll : Except GoString GoString
  deriving Repr

/-- The fields of `http.Response` that `Fetch` reads. -/
structure HttpResponse where
  StatusCode : Int
  Status : GoString
  Body : Body
  deriving Repr

/-- The constant `http.MethodGet`. -/
def MethodGet : GoString := "GET".toList

/-- The request handed to `http.DefaultClient.Do`. -/
structure HttpRequest where
  method : GoString
  url : GoString
  header : List (GoString × GoString)
  deriving DecidableEq, Repr

/-- The `net/http` collaborators of `Fetch`. -/
structure Net where
  /-- The error of `http.NewRequestWithContext(ctx, method, url, nil)`, if any -/
  newRequestErr : GoString → GoString → Option GoString
  /-- The call `http.DefaultClient.Do(req)` -/
  doRequest : HttpRequest → Except GoString HttpResponse

/-- The stream `Fetch` returns: the raw body, or `NewLimitReadCloser(body, limit)`. -/
inductive ReadCloser where
  | raw (body : Body)
  | limited (body : Body) (limit : Int)
  deriving Repr

/-- What one call of `Fetch` does: the request it issued (if it got that far), whether it closed
the response body itself, and the pair `(io.ReadCloser, error)` it returns. -/
structure FetchOutcome where
  issued : Option HttpRequest
  bodyClosed : Bool
  result : Except GoString ReadCloser

/-- The first statement of `Fetch`: `gwURL := f.gateway + path.Join(f.distPath, filePath)`. -/
def gwURL (f : HttpFetcher) (filePath : GoString) : GoString :=
  f.gateway ++ Join [f.distPath, filePath]

/-- The request `Fetch` builds once `http.NewRequestWithContext` has succeeded: a GET of
`gwURL`, with `req.Header.Set("User-Agent", f.userAgent)` applied when `f.userAgent != ""`. -/
def fetchRequest (f : HttpFetcher) (filePath : GoString) : HttpRequest :=
  let req : HttpRequest := { method := MethodGet, url := gwURL f filePath, header := [] }
  if f.userAgent ≠ [] then { req with header := [("User-Agent".toList, f.userAgent)] }
  else req

/-- The Go method `HttpFetcher.Fetch`. -/
def Fetch (net : Net) (f : HttpFetcher) (filePath : GoString) : FetchOutcome :=
  let url := gwURL f filePath
  match net.newRequestErr MethodGet url with
  | some err =>
    { issued := none, bodyClosed := false,
      result := .error ("http.NewRequest error: ".toList ++ err) }
  | none =>
    let req := fetchRequest f filePath
    match net.doRequest req with
    | .error err =>
      { issued := some req, bodyClosed := false,
        result := .error ("http.DefaultClient.Do error: ".toList ++ err) }
    | .ok resp =>
      if resp.StatusCode ≥ 400 then
        match resp.Body.readAll with
        | .error err =>
          { issued := some req, bodyClosed := true,
            result := .error ("error reading error body: ".toList ++ err) }
        | .ok mes =>
          { issued := some req, bodyClosed := true,
            result := .error ("GET ".toList ++ url ++ " error: ".toList ++ resp.Status ++
              ": ".toList ++ mes) }
      else if f.limit ≠ 0 then
        { issued := some req, bodyClosed := false,
          result := .ok (.limited resp.Body f.limit) }
      else
        { issued := some req, bodyClosed := false, result := .ok (.raw resp.Body) }

/-! ## `cmd/ipfs2/main.go`: data -/

/-- The two command sets `cmdsCli.Parse(args, Root, commands.Root)` chooses between, as
pointers: the client-only `Root` of `cmd/ipfs2`, `commands.Root`, or `nil`. -/
inductive Command where
  | Root
  | commandsRoot
  | nil
  deriving DecidableEq, Repr

/-- The type `cmds.ErrorType`. -/
abbrev ErrorType := Nat

/-- The constant `cmds.ErrClient`, declared in package `commands` (the second value of its
`iota` block, after `ErrNormal`). -/
def ErrClient : ErrorType := 1

/-- The struct `cmds.Error`: `Message` is what its method `Error()` returns. -/
structure CmdsError where
  Message : GoString
  Code : ErrorType
  deriving DecidableEq, Repr

/-- The node `core.NewIpfsNode` builds, identified by a handle. -/
structure IpfsNode where
  handle : Nat
  deriving DecidableEq, Repr

/-- The struct `config.Config`, reduced to the field that is read: `Addresses.API`. -/
structure Config where
  AddressesAPI : GoString
  deriving DecidableEq, Repr

/-- The struct `cmds.Context`. -/
structure Context where
  ConfigRoot : GoString
  Config : Config
  Node : Option IpfsNode
  deriving DecidableEq, Repr

/-- What the methods of a `cmds.OptionValue` return: `Found()`, `Bool()` and `String()`, the
latter two as Go pairs of a value and an optional error. -/
structure OptionValue where
  found : Bool
  bool : Bool × Option GoString
  string : GoString × Option GoString
  deriving DecidableEq, Repr

/-- The interface `cmds.Request`, as far as it is used: `Path()`, `Option(name)`,
`Context()`, and whether `Command().Marshallers` has an entry for `cmds.Text`. -/
structure Request where
  Path : List GoString
  option : GoString → OptionValue
  textMarshaller : Bool
  Context : Context

/-- The interface `cmds.Response`, as far as it is used: `Error()`, `Reader()` (the stream's
content, or the error of opening it) and `Request().Path()`. -/
structure Response where
  Error : Option CmdsError
  Reader : Except GoString GoString
  RequestPath : List GoString

/-- The five values `cmdsCli.Parse` returns. -/
structure ParseResult where
  req : Request
  root : Command
  cmdIsNil : Bool
  path : List GoString
  err : Option GoString

/-- The collaborators of `main.go`: every call that leaves the file is answered here. -/
structure Env where
  /-- The call `cmdsCli.Parse(args, Root, commands.Root)` -/
  parse : List GoString → ParseResult
  /-- The call `cmdsCli.HelpText("ipfs", root, path)`; the flag tells whether
  `root.Subcommands` was set to nil before -/
  helpText : Command → Bool → List GoString → Except GoString GoString
  /-- The call `req.SetOption(name, value)` -/
  setOption : Request → GoString → GoString → Request
  /-- The call `config.PathRoot()` -/
  pathRoot : Except GoString GoString
  /-- The call `config.Filename(path)` -/
  filename : GoString → Except GoString GoString
  /-- The call `config.Load(configFile)` -/
  load : GoString → Except GoString Config
  /-- The error of `os.Create("cpu.prof")`, if any -/
  createCpuProfErr : Option GoString
  /-- The error of `os.Create(heapProfile)`, if any -/
  createHeapProfErr : Option GoString
  /-- The error of `pprof.WriteHeapProfile(mprof)`, if any -/
  writeHeapProfileErr : Option GoString
  /-- The call `daemon.Locked(configRoot)` -/
  locked : GoString → Bool
  /-- The call `ma.NewMultiaddr(s)` -/
  newMultiaddr : GoString → Except GoString GoString
  /-- The call `manet.DialArgs(addr)`, its host result -/
  dialArgs : GoString → Except GoString GoString
  /-- The call `cmdsHttp.NewClient(host).Send(req)` -/
  send : GoString → Request → Except GoString Response
  /-- The call `core.NewIpfsNode(config, online)` -/
  newIpfsNode : Config → Bool → Except GoString IpfsNode
  /-- The call `root.Call(req)` -/
  call : Command → Request → Response

/-- The observable steps of one run of the program, in order. -/
inductive Event where
  | signalNotify
  | print (s : GoString)
  | helpText (root : Command) (path : List GoString)
  | clearSubcommands
  | setAllLoggers
  | osCreate (name : GoString)
  | startCPUProfile
  | stopCPUProfile
  | ofiClose
  | writeHeapProfile
  | mprofClose
  | logCritical (err : GoString)
  | logFatal (err : GoString)
  | exitCall (code : Int)
  | osExit (code : Int)
  | newMultiaddr (s : GoString)
  | dialArgs (addr : GoString)
  | send (host : GoString)
  | newIpfsNode
  | setContextNode (node : IpfsNode)
  | rootCall (root : Command) (node : Option IpfsNode)
  | nodeClose (node : IpfsNode)
  | openReader
  | ioCopy (out : GoString)
  deriving DecidableEq, Repr

/-- The mutable state of the process: the global flag `u.Debug` and the events so far. -/
structure World where
  Debug : Bool
  trace : List Event
  deriving DecidableEq, Repr

/-- How a function call ends: it returns a value, or the process was ended inside it with an
exit status (`os.Exit`; deferred calls do not run). -/
inductive Result (α : Type) where
  | ret (a : α) (w : World)
  | halt (status : Int) (w : World)

/-- The world a call ends in. -/
def Result.world {α : Type} : Result α → World
  | .ret _ w => w
  | .halt _ w => w

/-- The events up to the end of a call. -/
def Result.trace {α : Type} (r : Result α) : List Event := r.world.trace

/-- The exit status of the process when the call is the whole of `main`: the status given to
`os.Exit`, or 0 when `main` returns. -/
def Result.status {α : Type} : Result α → Int
  | .ret _ _ => 0
  | .halt s _ => s

/-- Whether the call returned to its caller. -/
def Result.returned {α : Type} : Result α → Bool
  | .ret _ _ => true
  | .halt _ _ => false

/-- A Go function body acting on the process state. -/
def Proc (α : Type) : Type := World → Result α

/-- Sequencing: what follows a call runs only when the call returns. -/
def Proc.bind {α β : Type} (m : Proc α) (f : α → Proc β) : Proc β :=
  fun w =>
    match m w with
    | .ret a w1 => f a w1
    | .halt s w1 => .halt s w1

instance : Monad Proc where
  pure a := fun w => .ret a w
  bind := Proc.bind

/-- Record one event. -/
def emit (e : Event) : Proc Unit :=
  fun w => .ret () { w with trace := w.trace ++ [e] }

/-- Read `u.Debug`. -/
def getDebug : Proc Bool := fun w => .ret w.Debug w

/-- The assignment `u.Debug = true`. -/
def setDebug : Proc Unit := fun w => .ret () { w with Debug := true }

/-- The call `os.Exit(code)`. -/
def osExit {α : Type} (code : Int) : Proc α :=
  fun w => .halt code { w with trace := w.trace ++ [.osExit code] }

/-- The call `log.Fatal(err)` of go-logging: logs at level critical, then `os.Exit(1)`. -/
def logFatal {α : Type} (err : GoString) : Proc α :=
  fun w => .halt 1 { w with trace := w.trace ++ [.logFatal err] }

/-- The call `fmt.Println(x)` for an error or a string `x`. -/
def println (s : GoString) : Proc Unit := emit (.print (s ++ ['\n']))

/-- The constant `heapProfile`. -/
def heapProfile : GoString := "ipfs.mprof".toList

/-- The constant `errorFormat`, `"ERROR: %v\n\n"`, with its verb filled in. -/
def errorFormat (v : GoString) : GoString := "ERROR: ".toList ++ v ++ "\n\n".toList

/-- The constant `cmds.Text`, declared in package `commands`. -/
def Text : GoString := "text".toList

/-- The constant `cmds.JSON`, declared in package `commands`. -/
def JSON : GoString := "json".toList

/-! ## `cmd/ipfs2/main.go`: functions -/

/-- The Go function `writeHeapProfileToFile`. -/
def writeHeapProfileToFile (env : Env) : Proc (Option GoString) := do
  emit (.osCreate heapProfile)
  if let some err := env.createHeapProfErr then
    logFatal err
  -- defer mprof.Close()
  emit .writeHeapProfile
  emit .mprofClose
  pure env.writeHeapProfileErr

/-- The Go function `exit`.  It never returns. -/
def exit {α : Type} (env : Env) (code : Int) : Proc α := do
  emit (.exitCall code)
  if (← getDebug) then
    emit .stopCPUProfile
    emit .ofiClose
    let err ← writeHeapProfileToFile env
    if let some e := err then
      emit (.logCritical e)
  osExit code

/-- The Go function `handleInterrupt`: registers the signal channel; the goroutine it starts
is not part of the sequential run. -/
def handleInterrupt : Proc Unit := emit .signalNotify

/-- The Go function `getConfigRoot`. -/
def getConfigRoot (env : Env) (req : Request) : Except GoString GoString :=
  match (req.option "config".toList).string with
  | (_, some err) => .error err
  | (configOpt, none) =>
    if configOpt ≠ [] then .ok configOpt
    else
      match env.pathRoot with
      | .error err => .error err
      | .ok configPath => .ok configPath

/-- The Go function `getConfig`. -/
def getConfig (env : Env) (path : GoString) : Except GoString Config :=
  match env.filename path with
  | .error err => .error err
  | .ok configFile => env.load configFile

/-- The Go function `createRequest`: `(req, root, nil)` or `(nil, nil, err)`. -/
def createRequest (env : Env) (args : List GoString) :
    Proc (Except GoString (Request × Command)) := do
  let p := env.parse args
  match p.err with
  | some err =>
    if p.path.length > 0 then
      let help := (p.req.option "help".toList).bool.1
      if !help then
        emit (.print (errorFormat err))
    if p.cmdIsNil then
      emit .clearSubcommands
    let root := if p.cmdIsNil then Command.commandsRoot else p.root
    emit (.helpText root p.path)
    match env.helpText root p.cmdIsNil p.path with
    | .error htErr => println htErr
    | .ok helpText => println helpText
    pure (.error err)
  | none =>
    match getConfigRoot env p.req with
    | .error err => pure (.error err)
    | .ok configPath =>
      match getConfig env configPath with
      | .error err => pure (.error err)
      | .ok conf =>
        let req : Request :=
          { p.req with Context := { p.req.Context with ConfigRoot := configPath, Config := conf } }
        let req :=
          if !(req.option "encoding".toList).found then
            if req.textMarshaller then env.setOption req "encoding".toList Text
            else env.setOption req "encoding".toList JSON
          else req
        pure (.ok (req, p.root))

/-- The Go function `handleOptions`. -/
def handleOptions (env : Env) (req : Request) (root : Command) : Proc Unit := do
  let help := (req.option "help".toList).bool.1
  let err := (req.option "help".toList).bool.2
  if help && err.isNone then
    emit (.helpText root req.Path)
    match env.helpText root false req.Path with
    | .error err => println err
    | .ok helpText => println helpText
    exit env 0
  else if let some e := err then
    println e
    exit env 1
  let debug := (req.option "debug".toList).bool.1
  let err := (req.option "debug".toList).bool.2
  if debug && err.isNone then
    setDebug
    emit .setAllLoggers
  else if let some e := err then
    println e
    exit env 1

/-- The Go function `callCommand`.  The deferred `node.Close()` runs when `callCommand`
returns, and not when the process is ended by `exit`. -/
def callCommand (env : Env) (req : Request) (root : Command) : Proc Response := do
  if root = Command.Root then
    emit (.rootCall root req.Context.Node)
    pure (env.call root req)
  else
    let localOpt := (req.option "local".toList).bool.1
    if let some err := (req.option "local".toList).bool.2 then
      println err
      exit env 1
    if (!(req.option "local".toList).found || !localOpt) && env.locked req.Context.ConfigRoot then
      emit (.newMultiaddr req.Context.Config.AddressesAPI)
      match env.newMultiaddr req.Context.Config.AddressesAPI with
      | .error err =>
        println err
        exit env 1
      | .ok addr =>
        emit (.dialArgs addr)
        match env.dialArgs addr with
        | .error err =>
          println err
          exit env 1
        | .ok host =>
          emit (.send host)
          match env.send host req with
          | .error err =>
            println err
            exit env 1
          | .ok res => pure res
    else
      emit .newIpfsNode
      match env.newIpfsNode req.Context.Config false with
      | .error err =>
        println err
        exit env 1
      | .ok node =>
        -- defer node.Close()
        emit (.setContextNode node)
        let req : Request := { req with Context := { req.Context with Node := some node } }
        emit (.rootCall root req.Context.Node)
        let res := env.call root req
        emit (.nodeClose node)
        pure res

/-- The Go function `outputResponse`. -/
def outputResponse (env : Env) (res : Response) (root : Command) : Proc Unit := do
  if let some e := res.Error then
    emit (.print (errorFormat e.Message))
    if e.Code = ErrClient then
      emit (.helpText root res.RequestPath)
      match env.helpText root false res.RequestPath with
      | .error err => println err
      | .ok helpText => println helpText
    exit env 1
  emit .openReader
  match res.Reader with
  | .error err =>
    println err
    -- return
  | .ok out => emit (.ioCopy out)

/-- The last three statements of `main`:
`res := callCommand(req, root); outputResponse(res, root); exit(0)`. -/
def mainDispatch (env : Env) (req : Request) (root : Command) : Proc Unit := do
  let res ← callCommand env req root
  outputResponse env res root
  exit env 0

/-- The Go function `main`, with `args` for `os.Args[1:]`. -/
def main (env : Env) (args : List GoString) : Proc Unit := do
  handleInterrupt
  match ← createRequest env args with
  | .error err =>
    println err
    exit env 1
  | .ok (req, root) =>
    handleOptions env req root
    -- if debugging, setup profiling.
    if (← getDebug) then
      emit (.osCreate "cpu.prof".toList)
      match env.createCpuProfErr with
      | some err =>
        println err
        -- return
      | none =>
        emit .startCPUProfile
        mainDispatch env req root
    else
      mainDispatch env req root

/-- One run of the program from an empty trace, `debug` being the value of `u.Debug` at
start-up. -/
def runMain (env : Env) (args : List GoString) (debug : Bool) : Result Unit :=
  main env args { Debug := debug, trace := [] }

/-! ## Observations on traces -/

/-- The events of one call of `exit(code)`, by cases on `u.Debug`, on the outcome of creating
the heap profile and on the outcome of writing it. -/
def exitEvents (env : Env) (debug : Bool) (code : Int) : List Event :=
  if debug then
    match env.createHeapProfErr with
    | some err =>
      [.exitCall code, .stopCPUProfile, .ofiClose, .osCreate heapProfile, .logFatal err]
    | none =>
      match env.writeHeapProfileErr with
      | some e =>
        [.exitCall code, .stopCPUProfile, .ofiClose, .osCreate heapProfile, .writeHeapProfile,
          .mprofClose, .logCritical e, .osExit code]
      | none =>
        [.exitCall code, .stopCPUProfile, .ofiClose, .osCreate heapProfile, .writeHeapProfile,
          .mprofClose, .osExit code]
  else [.exitCall code, .osExit code]

/-- The status a call of `exit(code)` ends the process with: `code`, except that a failure to
create the heap profile in debug mode ends it through `log.Fatal` with status 1. -/
def exitStatus (env : Env) (debug : Bool) (code : Int) : Int :=
  if debug ∧ env.createHeapProfErr.isSome then 1 else code

/-- The events a call added to the trace of the world `w` it started in. -/
def Result.since {α : Type} (r : Result α) (w : World) : List Event :=
  r.trace.drop w.trace.length

/-- Steps of the remote path of `callCommand`: resolving the API address, and `Send`. -/
def Event.isRemote : Event → Bool
  | .newMultiaddr _ => true
  | .dialArgs _ => true
  | .send _ => true
  | _ => false

/-- Steps of the local path of `callCommand`: building the node, attaching it, `root.Call`
and `node.Close`. -/
def Event.isLocal : Event → Bool
  | .newIpfsNode => true
  | .setContextNode _ => true
  | .rootCall _ _ => true
  | .nodeClose _ => true
  | _ => false

/-- The step `client.Send(req)`. -/
def Event.isSend : Event → Bool
  | .send _ => true
  | _ => false

/-- The step `root.Call(req)`. -/
def Event.isRootCall : Event → Bool
  | .rootCall _ _ => true
  | _ => false

/-- The step `node.Close()`. -/
def Event.isNodeClose : Event → Bool
  | .nodeClose _ => true
  | _ => false

/-- An entry into the termination routine `exit`. -/
def Event.isExitCall : Event → Bool
  | .exitCall _ => true
  | _ => false

/-- Output written by `fmt.Println` or `fmt.Printf`. -/
def Event.isPrint : Event → Bool
  | .print _ => true
  | _ => false

/-- A call of `cmdsCli.HelpText`. -/
def Event.isHelpText : Event → Bool
  | .helpText _ _ => true
  | _ => false

/-- Steps of rendering a stream: `res.Reader()` and `io.Copy`. -/
def Event.isStream : Event → Bool
  | .openReader => true
  | .ioCopy _ => true
  | _ => false

/-- The routing condition of `callCommand`:
`(!req.Option("local").Found() || !local) && daemon.Locked(req.Context().ConfigRoot)`. -/
def remoteCondition (env : Env) (req : Request) : Prop :=
  env.locked req.Context.ConfigRoot = true ∧
    ((req.option "local".toList).found = false ∨ (req.option "local".toList).bool.1 = false)

/-- The text `HelpText` yields for printing: the help text, or the text of its error. -/
def helpOutput (env : Env) (root : Command) (path : List GoString) : GoString :=
  match env.helpText root false path with
  | .error err => err
  | .ok helpText => helpText

/-- How often a list of events enters the termination routine `exit`. -/
def exitCalls (evs : List Event) : Nat := (evs.filter Event.isExitCall).length

/-- The discipline of the termination routine, for one function: a call only adds events, a
call that returns has not entered `exit`, and a call in which the process ends has entered
`exit` exactly once. -/
@[irreducible] def ExitsOnce {α : Type} (p : Proc α) : Prop :=
  ∀ w, ∃ evs, (p w).trace = w.trace ++ evs ∧
    ((p w).returned = true → exitCalls evs = 0) ∧
    ((p w).returned = false → exitCalls evs = 1)

/-- A function body that always ends the process and never returns to its caller. -/
@[irreducible] def NeverReturns {α : Type} (p : Proc α) : Prop :=
  ∀ w, (p w).returned = false

/-! ## Concrete collaborators for the runs below -/

/-- The collaborator used in the concrete runs of `Fetch`: every request is accepted and
answered with `resp`. -/
def constNet (resp : HttpResponse) : Net :=
  { newRequestErr := fun _ _ => none, doRequest := fun _ => .ok resp }

/-- A 200 response with a three-byte body. -/
def okResponse : HttpResponse :=
  { StatusCode := 200, Status := "200 OK".toList, Body := { readAll := .ok "abc".toList } }

/-- A 404 response with body `not found`. -/
def notFoundResponse : HttpResponse :=
  { StatusCode := 404, Status := "404 Not Found".toList,
    Body := { readAll := .ok "not found".toList } }

/-- The base paths of claim C3. -/
def basePaths : List GoString := ["a".toList, "/a".toList, "a/".toList, "/a/".toList]

/-- The requested files of claim C3. -/
def requestedFiles : List GoString := ["b".toList, "/b".toList, "b/".toList, "/b/".toList]

/-- An option that was not given on the command line. -/
def optionAbsent : OptionValue :=
  { found := false, bool := (false, none), string := ([], none) }

/-- A boolean option given on the command line. -/
def optionBool (b : Bool) : OptionValue :=
  { found := true, bool := (b, none), string := ([], some "cast error".toList) }

/-- The request of `ipfs cat`, with the options `debug` and `local` given when the flags say
so. -/
def sampleRequest (debug localFlag : Bool) : Request :=
  { Path := ["cat".toList],
    option := fun name =>
      if name = "debug".toList then (if debug then optionBool true else optionAbsent)
      else if name = "local".toList then (if localFlag then optionBool true else optionAbsent)
      else optionAbsent,
    textMarshaller := false,
    Context := { ConfigRoot := [], Config := { AddressesAPI := [] }, Node := none } }

/-- A response with no error whose stream holds `abc`. -/
def streamResponse : Response :=
  { Error := none, Reader := .ok "abc".toList, RequestPath := ["cat".toList] }

/-- A response with no error whose stream cannot be opened. -/
def brokenStreamResponse : Response :=
  { Error := none, Reader := .error "unsupported encoding".toList,
    RequestPath := ["cat".toList] }

/-- A response carrying a client error. -/
def clientErrorResponse : Response :=
  { Error := some { Message := "bad argument".toList, Code := ErrClient },
    Reader := .ok [], RequestPath := ["cat".toList] }

/-- A run environment: parsing succeeds with `commands.Root`, the configuration loads, the
daemon lock is as given by `locked`, every collaborator succeeds and both the daemon and the
in-process call answer `res`; creating `cpu.prof` fails when `cpuErr` is set. -/
def sampleEnv (debug localFlag locked : Bool) (res : Response) (cpuErr : Option GoString) :
    Env :=
  { parse := fun _ =>
      { req := sampleRequest debug localFlag, root := Command.commandsRoot, cmdIsNil := false,
        path := ["cat".toList], err := none },
    helpText := fun _ _ _ => .ok "USAGE".toList,
    setOption := fun req name value =>
      { req with option := fun k =>
          if k = name then { found := true, bool := (false, some "cast error".toList),
                             string := (value, none) }
          else req.option k },
    pathRoot := .ok "/home/user/.go-ipfs".toList,
    filename := fun p => .ok (p ++ "/config".toList),
    load := fun _ => .ok { AddressesAPI := "/ip4/127.0.0.1/tcp/5001".toList },
    createCpuProfErr := cpuErr,
    createHeapProfErr := none,
    writeHeapProfileErr := none,
    locked := fun _ => locked,
    newMultiaddr := fun s => .ok s,
    dialArgs := fun _ => .ok "127.0.0.1:5001".toList,
    send := fun _ _ => .ok res,
    newIpfsNode := fun _ _ => .ok { handle := 1 },
    call := fun _ _ => res }

/-! ## Facts about the `path` functions -/

/-- An element that starts with a character other than `/` is not empty. -/
theorem takeWhile_pos (path : GoString) (r : Nat) (hr : r < path.length)
    (h : ¬ path[r]? = some '/') :
    1 ≤ ((path.drop r).takeWhile (fun c => c != '/')).length := by
  have hd : path.drop r = path[r] :: path.drop (r + 1) := List.drop_eq_getElem_cons hr
  have hne : path[r] ≠ '/' := by
    intro hc
    apply h
    rw [List.getElem?_eq_getElem hr, hc]
  rw [hd, List.takeWhile_cons]
  simp [hne]

/-- The loop of `path.Clean` is done after `n - r` iterations: one more unit of fuel does not
change its result. -/
theorem cleanLoop_fuel (path : GoString) (rooted : Bool) :
    ∀ (fuel r dotdot : Nat) (out : GoString), path.length - r ≤ fuel →
      cleanLoop path rooted (fuel + 1) r dotdot out = cleanLoop path rooted fuel r dotdot out := by
  intro fuel
  induction fuel with
  | zero =>
    intro r dd out h
    have hr : ¬ r < path.length := by omega
    simp [cleanLoop, hr]
  | succ k ih =>
    intro r dd out h
    rw [cleanLoop]
    conv_rhs => rw [cleanLoop]
    by_cases hr : r < path.length
    · have h1 := takeWhile_pos path r hr
      simp only [hr, if_true]
      split_ifs with c1 c2 c3 c4 c5
      all_goals first
        | exact ih _ _ _ (by omega)
        | (have h2 := h1 (by assumption)
           exact ih _ _ _ (by omega))
    · simp [hr]

/-- Any amount of fuel from `n - r` on gives the loop of `path.Clean` the same result: the
fuel `Clean` passes, the length of the path, is enough. -/
theorem cleanLoop_enough (path : GoString) (rooted : Bool) (r dotdot : Nat) (out : GoString)
    (extra : Nat) :
    cleanLoop path rooted (path.length - r + extra) r dotdot out =
      cleanLoop path rooted (path.length - r) r dotdot out := by
  induction extra with
  | zero => rfl
  | succ k ih =>
    rw [← Nat.add_assoc, cleanLoop_fuel path rooted _ r dotdot out (by omega), ih]

/-! ## The HTTP fetcher -/

/-- With a stored limit of 0, `Fetch` hands back the raw body of a response below 400. -/
theorem Fetch_raw_of_limit_zero (net : Net) (f : HttpFetcher) (filePath : GoString)
    (resp : HttpResponse) (hl : f.limit = 0)
    (hreq : net.newRequestErr MethodGet (gwURL f filePath) = none)
    (hdo : net.doRequest (fetchRequest f filePath) = .ok resp)
    (hs : resp.StatusCode < 400) :
    (Fetch net f filePath).result = .ok (.raw resp.Body) := by
  have hs2 : ¬ resp.StatusCode ≥ 400 := by omega
  simp [Fetch, hreq, hdo, hs2, hl]

/-- With a stored limit other than 0, `Fetch` wraps the body of a response below 400 in
`NewLimitReadCloser(body, limit)`. -/
theorem Fetch_limited_of_limit_ne_zero (net : Net) (f : HttpFetcher) (filePath : GoString)
    (resp : HttpResponse) (hl : f.limit ≠ 0)
    (hreq : net.newRequestErr MethodGet (gwURL f filePath) = none)
    (hdo : net.doRequest (fetchRequest f filePath) = .ok resp)
    (hs : resp.StatusCode < 400) :
    (Fetch net f filePath).result = .ok (.limited resp.Body f.limit) := by
  have hs2 : ¬ resp.StatusCode ≥ 400 := by omega
  simp [Fetch, hreq, hdo, hs2, hl]

/-- The limit `NewHttpFetcher` stores, by cases on `fetchLimit`. -/
theorem storedLimit_eq (dist distPath gateway userAgent : GoString) (n : Int) :
    (NewHttpFetcher dist distPath gateway userAgent n).limit =
      if n = 0 then defaultFetchLimit else if n = -1 then 0 else n := by
  unfold NewHttpFetcher
  by_cases h0 : n = 0 <;> by_cases h1 : n = -1 <;>
    by_cases hd : distPath = [] <;> by_cases hg : gateway = [] <;> simp [h0, h1, hd, hg]

/-- Claim C2: the byte ceiling `NewHttpFetcher` stores is the default 512 MiB (536870912) for
`fetchLimit = 0`, is switched off (stored limit 0, so that `Fetch` returns the raw body of every
response below 400) for `fetchLimit = -1`, and is `fetchLimit` itself when that is positive. -/
theorem NewHttpFetcher_limit (dist distPath gateway userAgent : GoString) (n : Int) :
    (n = 0 → (NewHttpFetcher dist distPath gateway userAgent n).limit = 536870912) ∧
    (n = -1 →
      (NewHttpFetcher dist distPath gateway userAgent n).limit = 0 ∧
      ∀ (net : Net) (filePath : GoString) (resp : HttpResponse),
        net.newRequestErr MethodGet
            (gwURL (NewHttpFetcher dist distPath gateway userAgent n) filePath) = none →
        net.doRequest
            (fetchRequest (NewHttpFetcher dist distPath gateway userAgent n) filePath) = .ok resp →
        resp.StatusCode < 400 →
        (Fetch net (NewHttpFetcher dist distPath gateway userAgent n) filePath).result =
          .ok (.raw resp.Body)) ∧
    (0 < n → (NewHttpFetcher dist distPath gateway userAgent n).limit = n) := by
  refine ⟨?_, ?_, ?_⟩
  · intro h
    rw [storedLimit_eq, if_pos h]
    rfl
  · intro h
    have hl : (NewHttpFetcher dist distPath gateway userAgent n).limit = 0 := by
      rw [storedLimit_eq]
      subst h
      simp
    exact ⟨hl, fun net filePath resp hreq hdo hs =>
      Fetch_raw_of_limit_zero net _ filePath resp hl hreq hdo hs⟩
  · intro h
    rw [storedLimit_eq, if_neg (by omega), if_neg (by omega)]

/-- Claim C2 at concrete inputs: limit 0 gives 536870912, limit -1 gives 0 and a raw body,
limit 7 gives 7. -/
theorem NewHttpFetcher_limit_witness :
    (NewHttpFetcher "/ipns/dist.ipfs.io".toList [] [] [] 0).limit = 536870912 ∧
    ((NewHttpFetcher "/ipns/dist.ipfs.io".toList [] [] [] (-1)).limit = 0 ∧
      (Fetch (constNet okResponse) (NewHttpFetcher "/ipns/dist.ipfs.io".toList [] [] [] (-1))
        "versions".toList).result = .ok (.raw okResponse.Body)) ∧
    (NewHttpFetcher "/ipns/dist.ipfs.io".toList [] [] [] 7).limit = 7 :=
  ⟨(NewHttpFetcher_limit _ [] [] [] 0).1 rfl,
   ⟨((NewHttpFetcher_limit _ [] [] [] (-1)).2.1 rfl).1,
    ((NewHttpFetcher_limit _ [] [] [] (-1)).2.1 rfl).2 (constNet okResponse) _ okResponse
      rfl rfl (by decide)⟩,
   (NewHttpFetcher_limit _ [] [] [] 7).2.2 (by decide)⟩

/-- The gateway `NewHttpFetcher` stores for a non-empty `gateway` argument. -/
theorem NewHttpFetcher_gateway (dist distPath o userAgent : GoString) (n : Int) (ho : o ≠ []) :
    (NewHttpFetcher dist distPath o userAgent n).gateway = TrimRight o ['/'] := by
  unfold NewHttpFetcher
  by_cases h0 : n = 0 <;> by_cases hd : distPath = [] <;> simp [h0, hd, ho]

/-- The base path `NewHttpFetcher` stores for a non-empty `distPath` argument. -/
theorem NewHttpFetcher_distPath (dist distPath o userAgent : GoString) (n : Int)
    (hd : distPath ≠ []) :
    (NewHttpFetcher dist distPath o userAgent n).distPath =
      if !HasPrefix distPath ['/'] then ['/'] ++ distPath else distPath := by
  unfold NewHttpFetcher
  by_cases h0 : n = 0 <;> by_cases ho : o = [] <;> simp [h0, hd, ho]

/-- Every base path of `basePaths` is stored in a form that joins with every file of
`requestedFiles` to `/a/b`. -/
theorem Join_base_file :
    ∀ d ∈ basePaths, ∀ file ∈ requestedFiles,
      d ≠ [] ∧ Join [if !HasPrefix d ['/'] then ['/'] ++ d else d, file] = "/a/b".toList := by
  decide

/-- Dropping the leading slashes of a list leaves a list that does not start with a slash, and
only slashes were dropped. -/
theorem dropWhile_slash (l : GoString) :
    (∃ k, l = List.replicate k '/' ++ l.dropWhile (fun c => ['/'].contains c)) ∧
    (l.dropWhile (fun c => ['/'].contains c)).head? ≠ some '/' := by
  induction l with
  | nil => exact ⟨⟨0, rfl⟩, by simp⟩
  | cons c cs ih =>
    by_cases hc : c = '/'
    · subst hc
      obtain ⟨⟨k, hk⟩, h2⟩ := ih
      refine ⟨⟨k + 1, ?_⟩, ?_⟩
      · simp only [List.dropWhile_cons, List.replicate_succ, List.cons_append]
        simpa using hk
      · simpa [List.dropWhile_cons] using h2
    · refine ⟨⟨0, ?_⟩, ?_⟩
      · simp [List.dropWhile_cons, hc]
      · simp [List.dropWhile_cons, hc]

/-- The function `TrimRight s "/"` removes exactly the trailing slashes of `s`: what it
removes is a run of slashes, and what is left does not end in a slash. -/
theorem TrimRight_slash (s : GoString) :
    (∃ k, s = TrimRight s ['/'] ++ List.replicate k '/') ∧
    (TrimRight s ['/']).getLast? ≠ some '/' := by
  obtain ⟨⟨k, hk⟩, h2⟩ := dropWhile_slash s.reverse
  refine ⟨⟨k, ?_⟩, ?_⟩
  · have := congrArg List.reverse hk
    rw [List.reverse_reverse, List.reverse_append, List.reverse_replicate] at this
    exact this
  · unfold TrimRight
    rw [List.getLast?_reverse]
    exact h2

/-- Trailing slashes added to `s` do not change `TrimRight s "/"`. -/
theorem TrimRight_append_slashes (s : GoString) (k : Nat) :
    TrimRight (s ++ List.replicate k '/') ['/'] = TrimRight s ['/'] := by
  unfold TrimRight
  rw [List.reverse_append, List.reverse_replicate]
  congr 1
  induction k with
  | zero => rfl
  | succ k ih => simp [List.replicate_succ]

/-- Claim C3: for a gateway origin `o` (not the empty string, which selects the default
gateway) written with any number `k` of further trailing slashes, a base path among `a`, `/a`,
`a/`, `/a/` and a requested file among `b`, `/b`, `b/`, `/b/`, the URL `Fetch` builds, and
puts in the request it issues, is `o` without its trailing slashes followed by `/a/b`; the
part before `/a/b` does not end in a slash. -/
theorem Fetch_url (dist o userAgent : GoString) (n : Int) (k : Nat) (d file : GoString)
    (ho : o ≠ []) (hd : d ∈ basePaths) (hf : file ∈ requestedFiles) :
    gwURL (NewHttpFetcher dist d (o ++ List.replicate k '/') userAgent n) file =
      TrimRight o ['/'] ++ "/a/b".toList ∧
    (fetchRequest (NewHttpFetcher dist d (o ++ List.replicate k '/') userAgent n) file).url =
      TrimRight o ['/'] ++ "/a/b".toList ∧
    (TrimRight o ['/']).getLast? ≠ some '/' ∧
    ∃ j, o = TrimRight o ['/'] ++ List.replicate j '/' := by
  have hj := Join_base_file d hd file hf
  have ho2 : o ++ List.replicate k '/' ≠ [] := by simp [ho]
  have hu : gwURL (NewHttpFetcher dist d (o ++ List.replicate k '/') userAgent n) file =
      TrimRight o ['/'] ++ "/a/b".toList := by
    unfold gwURL
    rw [NewHttpFetcher_gateway _ _ _ _ _ ho2, NewHttpFetcher_distPath _ _ _ _ _ hj.1, hj.2,
      TrimRight_append_slashes]
  refine ⟨hu, ?_, (TrimRight_slash o).2, (TrimRight_slash o).1⟩
  unfold fetchRequest
  split_ifs <;> exact hu

/-- Claim C3 at a concrete input: gateway `http://gw//`, base path `a/`, file `/b/`. -/
theorem Fetch_url_witness :
    gwURL (NewHttpFetcher "/ipns/dist.ipfs.io".toList "a/".toList
        ("http://gw".toList ++ List.replicate 2 '/') [] 0) "/b/".toList =
      TrimRight "http://gw".toList ['/'] ++ "/a/b".toList ∧
    TrimRight "http://gw".toList ['/'] ++ "/a/b".toList = "http://gw/a/b".toList :=
  ⟨(Fetch_url "/ipns/dist.ipfs.io".toList "http://gw".toList [] 0 2 "a/".toList "/b/".toList
      (by decide) (by decide) (by decide)).1, by decide⟩

/-- The whole of a message is part of what is built around it. -/
theorem infix_of_append (a b c : GoString) : List.IsInfix b (a ++ b ++ c) :=
  ⟨a, c, rfl⟩

/-- Claim C4: when `Fetch` obtains a response, a status code of 400 or more whose body can be
read gives no stream and the error `GET <url> error: <status text>: <body>`, which contains
the status text and the whole body; a status code below 400 gives a stream and no error. -/
theorem Fetch_status (net : Net) (f : HttpFetcher) (filePath : GoString) (resp : HttpResponse)
    (hreq : net.newRequestErr MethodGet (gwURL f filePath) = none)
    (hdo : net.doRequest (fetchRequest f filePath) = .ok resp) :
    (∀ mes, 400 ≤ resp.StatusCode → resp.Body.readAll = .ok mes →
      (Fetch net f filePath).result =
          .error ("GET ".toList ++ gwURL f filePath ++ " error: ".toList ++ resp.Status ++
            ": ".toList ++ mes) ∧
        List.IsInfix resp.Status ("GET ".toList ++ gwURL f filePath ++ " error: ".toList ++
          resp.Status ++ ": ".toList ++ mes) ∧
        List.IsInfix mes ("GET ".toList ++ gwURL f filePath ++ " error: ".toList ++
          resp.Status ++ ": ".toList ++ mes)) ∧
    (resp.StatusCode < 400 →
      ∃ stream, (Fetch net f filePath).result = .ok stream ∧
        (stream = .raw resp.Body ∨ stream = .limited resp.Body f.limit)) := by
  refine ⟨?_, ?_⟩
  · intro mes hs hb
    refine ⟨?_, ?_, ?_⟩
    · unfold Fetch
      simp only [hreq, hdo]
      simp [hs, hb]
    · have := infix_of_append ("GET ".toList ++ gwURL f filePath ++ " error: ".toList)
        resp.Status (": ".toList ++ mes)
      simpa [List.append_assoc] using this
    · have := infix_of_append ("GET ".toList ++ gwURL f filePath ++ " error: ".toList ++
        resp.Status ++ ": ".toList) mes []
      simpa [List.append_assoc] using this
  · intro hs
    by_cases hl : f.limit = 0
    · exact ⟨_, Fetch_raw_of_limit_zero net f filePath resp hl hreq hdo hs, Or.inl rfl⟩
    · exact ⟨_, Fetch_limited_of_limit_ne_zero net f filePath resp hl hreq hdo hs, Or.inr rfl⟩

/-- Claim C4 at a concrete input: a 404 with body `not found` from the default gateway. -/
theorem Fetch_status_witness :
    (Fetch (constNet notFoundResponse) (NewHttpFetcher "/ipns/dist.ipfs.io".toList [] [] [] 0)
        "versions".toList).result =
      .error "GET https://ipfs.io/ipns/dist.ipfs.io/versions error: 404 Not Found: not found".toList ∧
    List.IsInfix "404 Not Found".toList
      "GET https://ipfs.io/ipns/dist.ipfs.io/versions error: 404 Not Found: not found".toList ∧
    List.IsInfix "not found".toList
      "GET https://ipfs.io/ipns/dist.ipfs.io/versions error: 404 Not Found: not found".toList :=
  (Fetch_status (constNet notFoundResponse) (NewHttpFetcher "/ipns/dist.ipfs.io".toList [] [] [] 0)
    "versions".toList notFoundResponse rfl rfl).1 "not found".toList (by decide) rfl

/-- The field `userAgent` of a fetcher built by `NewHttpFetcher` is empty, whatever the
`userAgent` argument. -/
theorem NewHttpFetcher_userAgent (dist distPath gateway userAgent : GoString) (n : Int) :
    (NewHttpFetcher dist distPath gateway userAgent n).userAgent = [] := by
  unfold NewHttpFetcher
  by_cases h0 : n = 0 <;> by_cases hd : distPath = [] <;> by_cases hg : gateway = [] <;>
    simp [h0, hd, hg]

/-- Claim C5, the code at the failing input: a fetcher built with the user agent `kubo/0.9`
issues its GET request without any header, so without `User-Agent: kubo/0.9`. -/
theorem Fetch_userAgent_dropped :
    (NewHttpFetcher "/ipns/dist.ipfs.io".toList [] [] "kubo/0.9".toList 0).userAgent = [] ∧
    (Fetch (constNet okResponse)
        (NewHttpFetcher "/ipns/dist.ipfs.io".toList [] [] "kubo/0.9".toList 0)
        "versions".toList).issued =
      some { method := MethodGet, url := "https://ipfs.io/ipns/dist.ipfs.io/versions".toList,
             header := [] } := by
  constructor <;> rfl

/-- For every `userAgent` argument, empty or not, the request `Fetch` builds has no header. -/
theorem fetchRequest_header (dist distPath gateway userAgent : GoString) (n : Int)
    (filePath : GoString) :
    (fetchRequest (NewHttpFetcher dist distPath gateway userAgent n) filePath).header = [] := by
  unfold fetchRequest
  rw [NewHttpFetcher_userAgent]
  simp

/-- Claim C6 as stated fails: the negative limit -2 is stored as it is, and `Fetch` wraps a 200
response in `NewLimitReadCloser(body, -2)` instead of returning the raw body. -/
theorem NewHttpFetcher_negative_counterexample :
    (-2 : Int) < 0 ∧
    (NewHttpFetcher "/ipns/dist.ipfs.io".toList [] [] [] (-2)).limit = -2 ∧
    (NewHttpFetcher "/ipns/dist.ipfs.io".toList [] [] [] (-2)).limit ≠ 0 ∧
    (Fetch (constNet okResponse) (NewHttpFetcher "/ipns/dist.ipfs.io".toList [] [] [] (-2))
        "versions".toList).result = .ok (.limited okResponse.Body (-2)) := by
  refine ⟨by decide, rfl, by decide, rfl⟩

/-- Claim C6 as amended: among the negative values of `fetchLimit` only -1 switches the
ceiling off (stored limit 0, raw body returned for every response below 400); every other
negative value is stored as it is, is not 0, and makes `Fetch` wrap the body of a response
below 400 in `NewLimitReadCloser(body, fetchLimit)`. -/
theorem NewHttpFetcher_negative (dist distPath gateway userAgent : GoString) (n : Int)
    (hn : n < 0) (net : Net) (filePath : GoString) (resp : HttpResponse)
    (hreq : net.newRequestErr MethodGet
      (gwURL (NewHttpFetcher dist distPath gateway userAgent n) filePath) = none)
    (hdo : net.doRequest
      (fetchRequest (NewHttpFetcher dist distPath gateway userAgent n) filePath) = .ok resp)
    (hs : resp.StatusCode < 400) :
    ((NewHttpFetcher dist distPath gateway userAgent n).limit = 0 ↔ n = -1) ∧
    (n = -1 →
      (Fetch net (NewHttpFetcher dist distPath gateway userAgent n) filePath).result =
        .ok (.raw resp.Body)) ∧
    (n ≠ -1 →
      (NewHttpFetcher dist distPath gateway userAgent n).limit = n ∧
      (Fetch net (NewHttpFetcher dist distPath gateway userAgent n) filePath).result =
        .ok (.limited resp.Body n)) := by
  have hl := storedLimit_eq dist distPath gateway userAgent n
  rw [if_neg (by omega)] at hl
  refine ⟨?_, ?_, ?_⟩
  · rw [hl]
    constructor
    · intro h
      by_contra hne
      rw [if_neg hne] at h
      omega
    · intro h
      rw [if_pos h]
  · intro h
    rw [if_pos h] at hl
    exact Fetch_raw_of_limit_zero net _ filePath resp hl hreq hdo hs
  · intro h
    rw [if_neg h] at hl
    refine ⟨hl, ?_⟩
    have hne : (NewHttpFetcher dist distPath gateway userAgent n).limit ≠ 0 := by
      rw [hl]
      omega
    have := Fetch_limited_of_limit_ne_zero net _ filePath resp hne hreq hdo hs
    rw [hl] at this
    exact this

/-- Claim C6 as amended, at the concrete limits -1 and -5. -/
theorem NewHttpFetcher_negative_witness :
    (Fetch (constNet okResponse) (NewHttpFetcher "/ipns/dist.ipfs.io".toList [] [] [] (-1))
        "versions".toList).result = .ok (.raw okResponse.Body) ∧
    ((NewHttpFetcher "/ipns/dist.ipfs.io".toList [] [] [] (-5)).limit = -5 ∧
      (Fetch (constNet okResponse) (NewHttpFetcher "/ipns/dist.ipfs.io".toList [] [] [] (-5))
        "versions".toList).result = .ok (.limited okResponse.Body (-5))) :=
  ⟨(NewHttpFetcher_negative "/ipns/dist.ipfs.io".toList [] [] [] (-1) (by decide)
      (constNet okResponse) "versions".toList okResponse rfl rfl (by decide)).2.1 rfl,
   (NewHttpFetcher_negative "/ipns/dist.ipfs.io".toList [] [] [] (-5) (by decide)
      (constNet okResponse) "versions".toList okResponse rfl rfl (by decide)).2.2 (by decide)⟩

/-! ## The termination routine `exit` -/

/-- The function `exit` never returns: it ends the process, after the events `exitEvents`. -/
theorem exit_eq {α : Type} (env : Env) (code : Int) (w : World) :
    (exit env code w : Result α) =
      .halt (exitStatus env w.Debug code)
        { w with trace := w.trace ++ exitEvents env w.Debug code } := by
  obtain ⟨d, tr⟩ := w
  cases d <;> cases h1 : env.createHeapProfErr <;> cases h2 : env.writeHeapProfileErr <;>
    simp [exit, exitEvents, exitStatus, writeHeapProfileToFile, bind, Proc.bind, pure, emit,
      getDebug, osExit, logFatal, h1, h2]

/-! ## Rendering: `outputResponse` -/

/-- On a response that carries an error, `outputResponse` prints the error line, prints help
when the code is `ErrClient`, and calls `exit(1)`. -/
theorem outputResponse_of_error (env : Env) (res : Response) (root : Command) (w : World)
    (e : CmdsError) (he : res.Error = some e) :
    outputResponse env res root w =
      .halt 1 { w with trace := w.trace ++
        (.print ("ERROR: ".toList ++ e.Message ++ "\n\n".toList) ::
          ((if e.Code = ErrClient then
              [.helpText root res.RequestPath,
               .print (helpOutput env root res.RequestPath ++ ['\n'])]
            else []) ++ exitEvents env w.Debug 1)) } := by
  obtain ⟨d, tr⟩ := w
  have hs : ∀ d, exitStatus env d 1 = 1 := by
    intro d
    unfold exitStatus
    split_ifs <;> rfl
  by_cases hc : e.Code = ErrClient <;> cases hh : env.helpText root false res.RequestPath <;>
    simp [outputResponse, he, hc, hh, helpOutput, exit_eq, hs, bind, Proc.bind, pure, emit,
      println, errorFormat]

/-- On a response without error, `outputResponse` opens the stream and copies it, or prints
the error of opening it; either way it returns to its caller. -/
theorem outputResponse_of_ok (env : Env) (res : Response) (root : Command) (w : World)
    (he : res.Error = none) :
    outputResponse env res root w =
      .ret () { w with trace := w.trace ++
        [.openReader,
         match res.Reader with
         | .error err => .print (err ++ ['\n'])
         | .ok out => .ioCopy out] } := by
  obtain ⟨d, tr⟩ := w
  cases hr : res.Reader <;>
    simp [outputResponse, he, hr, bind, Proc.bind, pure, emit, println]

/-- The events a call added, when its trace is the old trace followed by `evs`. -/
theorem since_append {α : Type} (r : Result α) (w : World) (evs : List Event)
    (h : r.trace = w.trace ++ evs) : r.since w = evs := by
  unfold Result.since
  rw [h, List.drop_left]

/-- One call of `exit` enters the termination routine once, and neither prints, asks for help
text, touches a stream nor takes a step of either dispatch path. -/
theorem exitEvents_facts (env : Env) (d : Bool) (code : Int) :
    (exitEvents env d code).filter Event.isExitCall = [.exitCall code] ∧
    (exitEvents env d code).head? = some (.exitCall code) ∧
    (exitEvents env d code).any Event.isPrint = false ∧
    (exitEvents env d code).any Event.isHelpText = false ∧
    (exitEvents env d code).any Event.isStream = false ∧
    (exitEvents env d code).any Event.isRemote = false ∧
    (exitEvents env d code).any Event.isLocal = false := by
  cases d <;> cases h1 : env.createHeapProfErr <;> cases h2 : env.writeHeapProfileErr <;>
    simp [exitEvents, h1, h2, Event.isExitCall, Event.isPrint, Event.isHelpText, Event.isStream,
      Event.isRemote, Event.isLocal]

/-- Claim C7: on a response that carries an error, `outputResponse` first prints
`ERROR: <message>`, ends the invocation through one call of `exit(1)` with exit status 1 and
without returning, never opens or copies the response stream, and asks for and prints help text
for the request's command path (or the error of generating it) exactly when the error's code is
`cmds.ErrClient`. -/
theorem outputResponse_error (env : Env) (res : Response) (root : Command) (w : World)
    (e : CmdsError) (he : res.Error = some e) :
    (outputResponse env res root w).returned = false ∧
    (outputResponse env res root w).status = 1 ∧
    ((outputResponse env res root w).since w).head? =
      some (.print ("ERROR: ".toList ++ e.Message ++ "\n\n".toList)) ∧
    ((outputResponse env res root w).since w).filter Event.isExitCall = [.exitCall 1] ∧
    ((outputResponse env res root w).since w).any Event.isStream = false ∧
    (((outputResponse env res root w).since w).any Event.isHelpText = true ↔
      e.Code = ErrClient) ∧
    (e.Code = ErrClient →
      ((outputResponse env res root w).since w).take 4 =
        [.print ("ERROR: ".toList ++ e.Message ++ "\n\n".toList),
         .helpText root res.RequestPath,
         .print (helpOutput env root res.RequestPath ++ ['\n']),
         .exitCall 1]) ∧
    (e.Code ≠ ErrClient →
      ((outputResponse env res root w).since w).take 2 =
        [.print ("ERROR: ".toList ++ e.Message ++ "\n\n".toList), .exitCall 1] ∧
      ((outputResponse env res root w).since w).filter Event.isPrint =
        [.print ("ERROR: ".toList ++ e.Message ++ "\n\n".toList)]) := by
  have heq := outputResponse_of_error env res root w e he
  have hsince := since_append (outputResponse env res root w) w _
    (by rw [heq]; rfl)
  obtain ⟨f1, f2, f3, f4, f5, -, -⟩ := exitEvents_facts env w.Debug 1
  have hx : ∃ rest, exitEvents env w.Debug 1 = .exitCall 1 :: rest := by
    cases hE : exitEvents env w.Debug 1 with
    | nil => simp [hE] at f2
    | cons a rest =>
      simp [hE] at f2
      exact ⟨rest, by rw [f2]⟩
  obtain ⟨rest, hrest⟩ := hx
  rw [hsince]
  refine ⟨by rw [heq]; rfl, by rw [heq]; rfl, rfl, ?_, ?_, ?_, ?_, ?_⟩
  · by_cases hc : e.Code = ErrClient <;>
      simp [hc, List.filter_cons, Event.isExitCall, f1]
  · by_cases hc : e.Code = ErrClient <;>
      simp [hc, Event.isStream, List.any_eq_false.mp f5] <;>
      simpa using f5
  · by_cases hc : e.Code = ErrClient
    · simp [hc, Event.isHelpText]
    · simp [hc, Event.isHelpText]
      simpa using f4
  · intro hc
    simp [hc, hrest]
  · intro hc
    refine ⟨by simp [hc, hrest], ?_⟩
    have : (exitEvents env w.Debug 1).filter Event.isPrint = [] := by
      rw [List.filter_eq_nil_iff]
      intro a ha
      have := List.any_eq_false.mp f3 a ha
      simpa using this
    simp [hc, List.filter_cons, Event.isPrint, this]

/-- Claim C7 at a concrete input: a client error with message `bad argument`. -/
theorem outputResponse_error_witness :
    (outputResponse (sampleEnv false false false clientErrorResponse none) clientErrorResponse
        Command.commandsRoot { Debug := false, trace := [] }).status = 1 ∧
    ((outputResponse (sampleEnv false false false clientErrorResponse none) clientErrorResponse
        Command.commandsRoot { Debug := false, trace := [] }).since
          { Debug := false, trace := [] }).take 4 =
      [.print "ERROR: bad argument\n\n".toList, .helpText Command.commandsRoot ["cat".toList],
       .print "USAGE\n".toList, .exitCall 1] :=
  ⟨(outputResponse_error (sampleEnv false false false clientErrorResponse none)
      clientErrorResponse Command.commandsRoot { Debug := false, trace := [] }
      { Message := "bad argument".toList, Code := ErrClient } rfl).2.1,
   (outputResponse_error (sampleEnv false false false clientErrorResponse none)
      clientErrorResponse Command.commandsRoot { Debug := false, trace := [] }
      { Message := "bad argument".toList, Code := ErrClient } rfl).2.2.2.2.2.2.1 rfl⟩

/-! ## Dispatch: `callCommand` -/

/-- The remote branch of `callCommand`: taken when the routing condition holds. -/
theorem callCommand_remote_eq (env : Env) (req : Request) (root : Command) (w : World)
    (hroot : root ≠ Command.Root) (hparse : (req.option "local".toList).bool.2 = none)
    (hc : remoteCondition env req) :
    callCommand env req root w =
      match env.newMultiaddr req.Context.Config.AddressesAPI with
      | .error err =>
        exit env 1 { w with trace := w.trace ++
          [.newMultiaddr req.Context.Config.AddressesAPI, .print (err ++ ['\n'])] }
      | .ok addr =>
        match env.dialArgs addr with
        | .error err =>
          exit env 1 { w with trace := w.trace ++
            [.newMultiaddr req.Context.Config.AddressesAPI, .dialArgs addr,
             .print (err ++ ['\n'])] }
        | .ok host =>
          match env.send host req with
          | .error err =>
            exit env 1 { w with trace := w.trace ++
              [.newMultiaddr req.Context.Config.AddressesAPI, .dialArgs addr, .send host,
               .print (err ++ ['\n'])] }
          | .ok res =>
            .ret res { w with trace := w.trace ++
              [.newMultiaddr req.Context.Config.AddressesAPI, .dialArgs addr, .send host] } := by
  obtain ⟨d, tr⟩ := w
  unfold remoteCondition at hc
  unfold callCommand
  generalize req.option "local".toList = ov at hparse hc
  obtain ⟨found, ⟨b, e⟩, s⟩ := ov
  simp only at hparse hc
  subst hparse
  obtain ⟨hl, hfb⟩ := hc
  have hcond : ((!found || !b) && env.locked req.Context.ConfigRoot) = true := by
    rw [hl]
    rcases hfb with h | h <;> simp [h]
  cases h1 : env.newMultiaddr req.Context.Config.AddressesAPI with
  | error err => simp [hroot, hcond, h1, bind, Proc.bind, pure, emit, println]
  | ok addr =>
    cases h2 : env.dialArgs addr with
    | error err => simp [hroot, hcond, h1, h2, bind, Proc.bind, pure, emit, println]
    | ok host =>
      cases h3 : env.send host req <;>
        simp [hroot, hcond, h1, h2, h3, bind, Proc.bind, pure, emit, println]

/-- The local branch of `callCommand`: taken when the routing condition fails. -/
theorem callCommand_local_eq (env : Env) (req : Request) (root : Command) (w : World)
    (hroot : root ≠ Command.Root) (hparse : (req.option "local".toList).bool.2 = none)
    (hc : ¬ remoteCondition env req) :
    callCommand env req root w =
      match env.newIpfsNode req.Context.Config false with
      | .error err =>
        exit env 1 { w with trace := w.trace ++ [.newIpfsNode, .print (err ++ ['\n'])] }
      | .ok node =>
        .ret (env.call root { req with Context := { req.Context with Node := some node } })
          { w with trace := w.trace ++
            [.newIpfsNode, .setContextNode node, .rootCall root (some node),
             .nodeClose node] } := by
  obtain ⟨d, tr⟩ := w
  unfold remoteCondition at hc
  unfold callCommand
  generalize req.option "local".toList = ov at hparse hc
  obtain ⟨found, ⟨b, e⟩, s⟩ := ov
  simp only at hparse hc
  subst hparse
  have hcond : ((!found || !b) && env.locked req.Context.ConfigRoot) = false := by
    cases found <;> cases b <;> cases hl : env.locked req.Context.ConfigRoot <;>
      simp [hl] at hc ⊢
  cases h1 : env.newIpfsNode req.Context.Config false <;>
    simp [hroot, hcond, h1, bind, Proc.bind, pure, emit, println]

/-- The events of a call that ends in `exit(code)` after the events `pre`. -/
theorem since_exit {α : Type} (env : Env) (code : Int) (w : World) (pre : List Event) :
    (exit env code { w with trace := w.trace ++ pre } : Result α).since w =
      pre ++ exitEvents env w.Debug code := by
  apply since_append
  rw [exit_eq]
  simp [Result.trace, Result.world, List.append_assoc]

/-- The events of a call that returns after the events `evs`. -/
theorem since_ret {α : Type} (a : α) (w : World) (evs : List Event) :
    (Result.ret a { w with trace := w.trace ++ evs }).since w = evs :=
  since_append _ w evs rfl

/-- Claim C1: for a request whose command set is not the client-only `Root` and whose `local`
option parses as a boolean, `callCommand` takes the remote path exactly when
`daemon.Locked(configRoot)` holds and `local` is not found or false, and the local path in
every other case; the remote path starts by resolving the API address and reaches
`client.Send` exactly when the address resolves; the local path starts by building a node and
reaches the in-process `root.Call` exactly when the node is built; no invocation takes steps of
both paths. -/
theorem callCommand_routing (env : Env) (req : Request) (root : Command) (w : World)
    (hroot : root ≠ Command.Root) (hparse : (req.option "local".toList).bool.2 = none) :
    (((callCommand env req root w).since w).any Event.isRemote = true ↔
      remoteCondition env req) ∧
    (((callCommand env req root w).since w).any Event.isLocal = true ↔
      ¬ remoteCondition env req) ∧
    (remoteCondition env req →
      ((callCommand env req root w).since w).head? =
        some (.newMultiaddr req.Context.Config.AddressesAPI)) ∧
    (¬ remoteCondition env req →
      ((callCommand env req root w).since w).head? = some .newIpfsNode) ∧
    (((callCommand env req root w).since w).any Event.isSend = true ↔
      remoteCondition env req ∧
        ∃ addr host, env.newMultiaddr req.Context.Config.AddressesAPI = .ok addr ∧
          env.dialArgs addr = .ok host) ∧
    (((callCommand env req root w).since w).any Event.isRootCall = true ↔
      ¬ remoteCondition env req ∧
        ∃ node, env.newIpfsNode req.Context.Config false = .ok node) ∧
    ¬ (((callCommand env req root w).since w).any Event.isRemote = true ∧
        ((callCommand env req root w).since w).any Event.isLocal = true) := by
  obtain ⟨-, -, -, -, -, fr, fl⟩ := exitEvents_facts env w.Debug 1
  have fs : (exitEvents env w.Debug 1).any Event.isSend = false := by
    rw [List.any_eq_false] at fr ⊢
    intro x hx
    have := fr x hx
    cases x <;> simp_all [Event.isSend, Event.isRemote]
  have fc : (exitEvents env w.Debug 1).any Event.isRootCall = false := by
    rw [List.any_eq_false] at fl ⊢
    intro x hx
    have := fl x hx
    cases x <;> simp_all [Event.isRootCall, Event.isLocal]
  by_cases hc : remoteCondition env req
  · rw [callCommand_remote_eq env req root w hroot hparse hc]
    cases h1 : env.newMultiaddr req.Context.Config.AddressesAPI with
    | error err =>
      dsimp only
      rw [since_exit]
      simp only [List.any_append, List.any_cons, List.any_nil, List.cons_append,
        List.nil_append, List.head?_cons, fr, fl, fs, fc, Event.isRemote, Event.isLocal,
        Event.isSend, Event.isRootCall]
      simp [hc]
    | ok addr =>
      dsimp only
      cases h2 : env.dialArgs addr with
      | error err =>
        dsimp only
        rw [since_exit]
        simp only [List.any_append, List.any_cons, List.any_nil, List.cons_append,
          List.nil_append, List.head?_cons, fr, fl, fs, fc, Event.isRemote, Event.isLocal,
          Event.isSend, Event.isRootCall]
        simp [hc, h2]
      | ok host =>
        dsimp only
        cases h3 : env.send host req with
        | error err =>
          dsimp only
          rw [since_exit]
          simp only [List.any_append, List.any_cons, List.any_nil, List.cons_append,
            List.nil_append, List.head?_cons, fr, fl, fs, fc, Event.isRemote, Event.isLocal,
            Event.isSend, Event.isRootCall]
          simp [hc, h2]
        | ok res =>
          dsimp only
          rw [since_ret]
          simp only [List.any_append, List.any_cons, List.any_nil, List.cons_append,
            List.nil_append, List.head?_cons, Event.isRemote, Event.isLocal,
            Event.isSend, Event.isRootCall]
          simp [hc, h2]
  · rw [callCommand_local_eq env req root w hroot hparse hc]
    cases h1 : env.newIpfsNode req.Context.Config false with
    | error err =>
      dsimp only
      rw [since_exit]
      simp only [List.any_append, List.any_cons, List.any_nil, List.cons_append,
        List.nil_append, List.head?_cons, fr, fl, fs, fc, Event.isRemote, Event.isLocal,
        Event.isSend, Event.isRootCall]
      simp [hc]
    | ok node =>
      dsimp only
      rw [since_ret]
      simp only [List.any_append, List.any_cons, List.any_nil, List.cons_append,
        List.nil_append, List.head?_cons, Event.isRemote, Event.isLocal,
        Event.isSend, Event.isRootCall]
      simp [hc]

/-- Claim C1 at concrete inputs: with the daemon lock held and no `local` option the request is
sent to the daemon and `root.Call` does not run in-process; with `local` set to true, or
without the lock, `root.Call` runs in-process and nothing is sent. -/
theorem callCommand_routing_witness :
    (((callCommand (sampleEnv false false true streamResponse none) (sampleRequest false false)
        Command.commandsRoot { Debug := false, trace := [] }).since
          { Debug := false, trace := [] }).any Event.isSend = true) ∧
    (((callCommand (sampleEnv false true true streamResponse none) (sampleRequest false true)
        Command.commandsRoot { Debug := false, trace := [] }).since
          { Debug := false, trace := [] }).any Event.isRootCall = true) ∧
    (((callCommand (sampleEnv false false false streamResponse none) (sampleRequest false false)
        Command.commandsRoot { Debug := false, trace := [] }).since
          { Debug := false, trace := [] }).any Event.isRootCall = true) :=
  ⟨(callCommand_routing (sampleEnv false false true streamResponse none)
      (sampleRequest false false) Command.commandsRoot { Debug := false, trace := [] }
      (by decide) rfl).2.2.2.2.1.mpr
        ⟨⟨rfl, Or.inl rfl⟩, [], "127.0.0.1:5001".toList, rfl, rfl⟩,
   (callCommand_routing (sampleEnv false true true streamResponse none)
      (sampleRequest false true) Command.commandsRoot { Debug := false, trace := [] }
      (by decide) rfl).2.2.2.2.2.1.mpr
        ⟨fun h => by
            rcases h.2 with h2 | h2
            · exact absurd h2 (by decide)
            · exact absurd h2 (by decide),
          { handle := 1 }, rfl⟩,
   (callCommand_routing (sampleEnv false false false streamResponse none)
      (sampleRequest false false) Command.commandsRoot { Debug := false, trace := [] }
      (by decide) rfl).2.2.2.2.2.1.mpr
        ⟨fun h => absurd h.1 (by decide), { handle := 1 }, rfl⟩⟩

/-! ## Node release and rendering -/

/-- Rendering a response and then calling `exit(0)`, as `main` does after `callCommand`,
never closes a node and always ends the process. -/
theorem render_exit_facts (env : Env) (res : Response) (root : Command) (w : World) :
    ∃ rest,
      ((outputResponse env res root >>= fun _ => (exit env 0 : Proc Unit)) w).trace =
        w.trace ++ rest ∧
      rest.any Event.isNodeClose = false ∧
      rest.filter Event.isExitCall ≠ [] ∧
      (rest.head? = some .openReader ∨ ∃ s, rest.head? = some (.print s)) ∧
      ((outputResponse env res root >>= fun _ => (exit env 0 : Proc Unit)) w).returned =
        false := by
  have hx : ∀ c, (exitEvents env w.Debug c).any Event.isNodeClose = false ∧
      (exitEvents env w.Debug c).filter Event.isExitCall ≠ [] := by
    intro c
    cases w.Debug <;> cases h1 : env.createHeapProfErr <;>
      cases h2 : env.writeHeapProfileErr <;>
      simp [exitEvents, h1, h2, Event.isNodeClose, Event.isExitCall]
  cases he : res.Error with
  | some e =>
    refine ⟨.print ("ERROR: ".toList ++ e.Message ++ "\n\n".toList) ::
          ((if e.Code = ErrClient then
              [.helpText root res.RequestPath,
               .print (helpOutput env root res.RequestPath ++ ['\n'])]
            else []) ++ exitEvents env w.Debug 1), ?_, ?_, ?_, Or.inr ⟨_, rfl⟩, ?_⟩
    · simp only [bind, Proc.bind, outputResponse_of_error env res root w e he]
      rfl
    · by_cases hc : e.Code = ErrClient <;>
        simp [hc, Event.isNodeClose, List.any_append, (hx 1).1, -List.any_eq_false]
    · by_cases hc : e.Code = ErrClient <;>
        simp [hc, Event.isExitCall, List.filter_cons, List.filter_append, (hx 1).2]
    · simp only [bind, Proc.bind, outputResponse_of_error env res root w e he]
      rfl
  | none =>
    refine ⟨[.openReader,
        match res.Reader with
        | .error err => .print (err ++ ['\n'])
        | .ok out => .ioCopy out] ++ exitEvents env w.Debug 0, ?_, ?_, ?_,
      Or.inl (by simp), ?_⟩
    · simp only [bind, Proc.bind, outputResponse_of_ok env res root w he, exit_eq]
      simp [Result.trace, Result.world]
    · cases hr : res.Reader <;>
        simp [Event.isNodeClose, List.any_append, (hx 0).1, -List.any_eq_false]
    · cases hr : res.Reader <;>
        simp [Event.isExitCall, List.filter_cons, List.filter_append, (hx 0).2]
    · simp only [bind, Proc.bind, outputResponse_of_ok env res root w he, exit_eq]
      rfl

/-- Claim C10 as stated fails: in a local-path run whose node is built and whose response
streams, `node.Close` is the fifth event and comes before the stream is opened and copied by
`outputResponse`, not after. -/
theorem node_release_counterexample :
    (runMain (sampleEnv false false false streamResponse none) [] false).trace =
      [.signalNotify, .newIpfsNode, .setContextNode { handle := 1 },
       .rootCall Command.commandsRoot (some { handle := 1 }), .nodeClose { handle := 1 },
       .openReader, .ioCopy "abc".toList, .exitCall 0, .osExit 0] ∧
    List.indexOf (Event.nodeClose { handle := 1 })
        (runMain (sampleEnv false false false streamResponse none) [] false).trace <
      List.indexOf Event.openReader
        (runMain (sampleEnv false false false streamResponse none) [] false).trace := by
  have h : (runMain (sampleEnv false false false streamResponse none) [] false).trace =
      [.signalNotify, .newIpfsNode, .setContextNode { handle := 1 },
       .rootCall Command.commandsRoot (some { handle := 1 }), .nodeClose { handle := 1 },
       .openReader, .ioCopy "abc".toList, .exitCall 0, .osExit 0] := rfl
  refine ⟨h, ?_⟩
  rw [h]
  decide

/-- Claim C10 as amended: on a local-path invocation whose node is built, the node is attached
to the request's context before `root.Call` runs, and `node.Close` runs once, when
`callCommand` returns: after `root.Call` and before `outputResponse` starts.  Rendering and
`exit(0)` then run in the state in which the node is already closed, they never close it
again, and this holds whatever the response is, also when rendering ends in an error. -/
theorem callCommand_node_release (env : Env) (req : Request) (root : Command) (w : World)
    (node : IpfsNode) (hroot : root ≠ Command.Root)
    (hparse : (req.option "local".toList).bool.2 = none)
    (hc : ¬ remoteCondition env req)
    (hn : env.newIpfsNode req.Context.Config false = .ok node) :
    callCommand env req root w =
      .ret (env.call root { req with Context := { req.Context with Node := some node } })
        { w with trace := w.trace ++
          [.newIpfsNode, .setContextNode node, .rootCall root (some node), .nodeClose node] } ∧
    mainDispatch env req root w =
      (outputResponse env
          (env.call root { req with Context := { req.Context with Node := some node } }) root
        >>= fun _ => (exit env 0 : Proc Unit))
        { w with trace := w.trace ++
          [.newIpfsNode, .setContextNode node, .rootCall root (some node), .nodeClose node] } ∧
    ∃ rest,
      (mainDispatch env req root w).since w =
        [.newIpfsNode, .setContextNode node, .rootCall root (some node), .nodeClose node] ++
          rest ∧
      rest.any Event.isNodeClose = false ∧
      (rest.head? = some .openReader ∨ ∃ s, rest.head? = some (.print s)) ∧
      ((mainDispatch env req root w).since w).filter Event.isNodeClose = [.nodeClose node] := by
  have h1 : callCommand env req root w =
      .ret (env.call root { req with Context := { req.Context with Node := some node } })
        { w with trace := w.trace ++
          [.newIpfsNode, .setContextNode node, .rootCall root (some node),
           .nodeClose node] } := by
    rw [callCommand_local_eq env req root w hroot hparse hc, hn]
  have h2 : mainDispatch env req root w =
      (outputResponse env
          (env.call root { req with Context := { req.Context with Node := some node } }) root
        >>= fun _ => (exit env 0 : Proc Unit))
        { w with trace := w.trace ++
          [.newIpfsNode, .setContextNode node, .rootCall root (some node),
           .nodeClose node] } := by
    unfold mainDispatch
    simp only [bind, Proc.bind, h1]
  refine ⟨h1, h2, ?_⟩
  obtain ⟨rest, hr1, hr2, -, hr4, -⟩ := render_exit_facts env
    (env.call root { req with Context := { req.Context with Node := some node } }) root
    { w with trace := w.trace ++
      [.newIpfsNode, .setContextNode node, .rootCall root (some node), .nodeClose node] }
  have hs : (mainDispatch env req root w).since w =
      [.newIpfsNode, .setContextNode node, .rootCall root (some node), .nodeClose node] ++
        rest := by
    apply since_append
    rw [h2, hr1, List.append_assoc]
  refine ⟨rest, hs, hr2, hr4, ?_⟩
  rw [hs]
  have hf : rest.filter Event.isNodeClose = [] := by
    rw [List.filter_eq_nil_iff]
    intro a ha
    have := List.any_eq_false.mp hr2 a ha
    simpa using this
  simp [List.filter_cons, Event.isNodeClose, hf]

/-- Claim C10 as amended, at a concrete input: a local-path run whose rendering fails to open
the stream closes the node once, fourth, before the stream is opened. -/
theorem callCommand_node_release_witness :
    ∃ rest,
      (mainDispatch (sampleEnv false false false brokenStreamResponse none)
          (sampleRequest false false) Command.commandsRoot { Debug := false, trace := [] }).since
            { Debug := false, trace := [] } =
        [.newIpfsNode, .setContextNode { handle := 1 },
         .rootCall Command.commandsRoot (some { handle := 1 }), .nodeClose { handle := 1 }] ++
          rest ∧
      rest.any Event.isNodeClose = false ∧
      (rest.head? = some .openReader ∨ ∃ s, rest.head? = some (.print s)) ∧
      ((mainDispatch (sampleEnv false false false brokenStreamResponse none)
          (sampleRequest false false) Command.commandsRoot { Debug := false, trace := [] }).since
            { Debug := false, trace := [] }).filter Event.isNodeClose =
        [.nodeClose { handle := 1 }] :=
  (callCommand_node_release (sampleEnv false false false brokenStreamResponse none)
    (sampleRequest false false) Command.commandsRoot { Debug := false, trace := [] }
    { handle := 1 } (by decide) rfl (fun h => absurd h.1 (by decide)) rfl).2.2

/-! ## Runs of `main` that end without status 1 or without `exit` -/

/-- Claim C8, the code at the failing input: a run whose response has no error but whose
stream cannot be opened prints the error, asks for no help text, and ends through `exit(0)`
with exit status 0. -/
theorem main_broken_stream_status :
    (runMain (sampleEnv false false false brokenStreamResponse none) [] false).trace =
      [.signalNotify, .newIpfsNode, .setContextNode { handle := 1 },
       .rootCall Command.commandsRoot (some { handle := 1 }), .nodeClose { handle := 1 },
       .openReader, .print "unsupported encoding\n".toList, .exitCall 0, .osExit 0] ∧
    (runMain (sampleEnv false false false brokenStreamResponse none) [] false).status = 0 ∧
    (runMain (sampleEnv false false false brokenStreamResponse none) [] false).returned =
      false := by
  refine ⟨rfl, rfl, rfl⟩

/-- For every response without error, also one whose stream cannot be opened, rendering
returns, and the `exit(0)` that follows ends the process with the status of `exit(0)`. -/
theorem render_ok_status (env : Env) (res : Response) (root : Command) (w : World)
    (he : res.Error = none) :
    ((outputResponse env res root >>= fun _ => (exit env 0 : Proc Unit)) w).status =
      exitStatus env w.Debug 0 ∧
    ((outputResponse env res root >>= fun _ => (exit env 0 : Proc Unit)) w).since w =
      [.openReader,
        match res.Reader with
        | .error err => .print (err ++ ['\n'])
        | .ok out => .ioCopy out] ++ exitEvents env w.Debug 0 := by
  constructor
  · simp only [bind, Proc.bind, outputResponse_of_ok env res root w he, exit_eq]
    rfl
  · apply since_append
    simp only [bind, Proc.bind, outputResponse_of_ok env res root w he, exit_eq]
    simp [Result.trace, Result.world]

/-- Claim C9, the code at the failing input: in debug mode, when `cpu.prof` cannot be
created, `main` prints the error and returns; the process ends with status 0 and the
termination routine `exit` is never entered. -/
theorem main_cpu_profile_return :
    (runMain (sampleEnv true false false streamResponse (some "permission denied".toList))
        [] false).trace =
      [.signalNotify, .setAllLoggers, .osCreate "cpu.prof".toList,
       .print "permission denied\n".toList] ∧
    (runMain (sampleEnv true false false streamResponse (some "permission denied".toList))
        [] false).returned = true ∧
    (runMain (sampleEnv true false false streamResponse (some "permission denied".toList))
        [] false).status = 0 ∧
    ((runMain (sampleEnv true false false streamResponse (some "permission denied".toList))
        [] false).trace).filter Event.isExitCall = [] := by
  refine ⟨rfl, rfl, rfl, rfl⟩

/-- In debug mode, when the heap profile can be created, `exit(code)` stops CPU sampling,
closes the profile sink and writes the heap snapshot, in this order, before `os.Exit(code)`,
and the exit status is `code` also when writing the snapshot fails. -/
theorem exit_debug_teardown (env : Env) (code : Int) (w : World) (hd : w.Debug = true)
    (hh : env.createHeapProfErr = none) :
    ((exit env code w : Result Unit)).status = code ∧
    ((exit env code w : Result Unit)).since w =
      [.exitCall code, .stopCPUProfile, .ofiClose, .osCreate heapProfile, .writeHeapProfile,
       .mprofClose] ++
      (match env.writeHeapProfileErr with
        | some e => [.logCritical e]
        | none => []) ++ [.osExit code] := by
  constructor
  · rw [exit_eq]
    simp [Result.status, exitStatus, hh]
  · apply since_append
    rw [exit_eq]
    cases h2 : env.writeHeapProfileErr <;>
      simp [Result.trace, Result.world, exitEvents, hd, hh, h2]

/-! ## Every run of `main` enters `exit` at most once -/

/-- A step that is not an entry into `exit` keeps the discipline. -/
theorem exitsOnce_emit (e : Event) (he : e.isExitCall = false) : ExitsOnce (emit e) := by
  unfold ExitsOnce
  intro w
  refine ⟨[e], rfl, ?_, ?_⟩
  · intro _
    simp [exitCalls, List.filter_cons, he]
  · intro h
    simp [GoIpfs.emit, Result.returned] at h

/-- Returning a value keeps the discipline. -/
theorem exitsOnce_pure {α : Type} (a : α) : ExitsOnce (pure a : Proc α) := by
  unfold ExitsOnce
  intro w
  refine ⟨[], by simp [Pure.pure, Result.trace, Result.world], fun _ => rfl, ?_⟩
  intro h
  simp [Pure.pure, Result.returned] at h

/-- Printing keeps the discipline. -/
theorem exitsOnce_println (s : GoString) : ExitsOnce (println s) :=
  exitsOnce_emit _ rfl

/-- Reading `u.Debug` keeps the discipline. -/
theorem exitsOnce_getDebug : ExitsOnce getDebug := by
  unfold ExitsOnce
  intro w
  refine ⟨[], by simp [GoIpfs.getDebug, Result.trace, Result.world], fun _ => rfl, ?_⟩
  intro h
  simp [GoIpfs.getDebug, Result.returned] at h

/-- Setting `u.Debug` keeps the discipline. -/
theorem exitsOnce_setDebug : ExitsOnce setDebug := by
  unfold ExitsOnce
  intro w
  refine ⟨[], by simp [GoIpfs.setDebug, Result.trace, Result.world], fun _ => rfl, ?_⟩
  intro h
  simp [GoIpfs.setDebug, Result.returned] at h

/-- The routine `exit` itself: it never returns and is entered once. -/
theorem exitsOnce_exit {α : Type} (env : Env) (code : Int) :
    ExitsOnce (exit env code : Proc α) := by
  unfold ExitsOnce
  intro w
  refine ⟨exitEvents env w.Debug code, by rw [exit_eq]; rfl, ?_, ?_⟩
  · intro h
    rw [exit_eq] at h
    simp [Result.returned] at h
  · intro _
    simp [exitCalls, (exitEvents_facts env w.Debug code).1]

/-- Sequencing keeps the discipline: what follows a call runs only when the call returned, so
only when it has not entered `exit`. -/
theorem exitsOnce_bind {α β : Type} (p : Proc α) (f : α → Proc β) (hp : ExitsOnce p)
    (hf : ∀ a, ExitsOnce (f a)) : ExitsOnce (p >>= f) := by
  unfold ExitsOnce at hp hf ⊢
  intro w
  obtain ⟨evs, h1, h2, h3⟩ := hp w
  cases hpw : p w with
  | halt s w1 =>
    rw [hpw] at h1 h2 h3
    refine ⟨evs, ?_, ?_, ?_⟩
    · simp only [Bind.bind, Proc.bind, hpw]
      exact h1
    · intro h
      simp [Bind.bind, Proc.bind, hpw, Result.returned] at h
    · intro _
      exact h3 rfl
  | ret a w1 =>
    rw [hpw] at h1 h2 h3
    obtain ⟨evs2, g1, g2, g3⟩ := hf a w1
    have e0 : exitCalls evs = 0 := h2 rfl
    have hw1 : w1.trace = w.trace ++ evs := h1
    refine ⟨evs ++ evs2, ?_, ?_, ?_⟩
    · simp only [Bind.bind, Proc.bind, hpw]
      rw [g1, hw1, List.append_assoc]
    · intro h
      simp only [Bind.bind, Proc.bind, hpw] at h
      have := g2 h
      simp only [exitCalls, List.filter_append, List.length_append] at *
      omega
    · intro h
      simp only [Bind.bind, Proc.bind, hpw] at h
      have := g3 h
      simp only [exitCalls, List.filter_append, List.length_append] at *
      omega

/-- The function `outputResponse` keeps the discipline. -/
theorem exitsOnce_outputResponse (env : Env) (res : Response) (root : Command) :
    ExitsOnce (outputResponse env res root) := by
  unfold outputResponse
  repeat' first
    | apply exitsOnce_exit
    | apply exitsOnce_println
    | exact exitsOnce_emit _ rfl
    | apply exitsOnce_pure
    | apply exitsOnce_getDebug
    | apply exitsOnce_setDebug
    | apply exitsOnce_bind
    | intro _
    | split

/-- The function `callCommand` keeps the discipline. -/
theorem exitsOnce_callCommand (env : Env) (req : Request) (root : Command) :
    ExitsOnce (callCommand env req root) := by
  unfold callCommand
  repeat' first
    | apply exitsOnce_exit
    | apply exitsOnce_println
    | exact exitsOnce_emit _ rfl
    | apply exitsOnce_pure
    | apply exitsOnce_getDebug
    | apply exitsOnce_setDebug
    | apply exitsOnce_bind
    | intro _
    | split

/-- The function `handleOptions` keeps the discipline. -/
theorem exitsOnce_handleOptions (env : Env) (req : Request) (root : Command) :
    ExitsOnce (handleOptions env req root) := by
  unfold handleOptions
  simp only []
  repeat' first
    | apply exitsOnce_exit
    | apply exitsOnce_println
    | exact exitsOnce_emit _ rfl
    | apply exitsOnce_pure
    | apply exitsOnce_getDebug
    | apply exitsOnce_setDebug
    | apply exitsOnce_bind
    | intro _
    | split

/-- The function `createRequest` keeps the discipline: it never enters `exit`. -/
theorem exitsOnce_createRequest (env : Env) (args : List GoString) :
    ExitsOnce (createRequest env args) := by
  unfold createRequest
  simp only []
  repeat' first
    | apply exitsOnce_exit
    | apply exitsOnce_println
    | exact exitsOnce_emit _ rfl
    | apply exitsOnce_pure
    | apply exitsOnce_getDebug
    | apply exitsOnce_setDebug
    | apply exitsOnce_bind
    | intro _
    | split

/-- The last three statements of `main` keep the discipline. -/
theorem exitsOnce_mainDispatch (env : Env) (req : Request) (root : Command) :
    ExitsOnce (mainDispatch env req root) := by
  unfold mainDispatch
  repeat' first
    | apply exitsOnce_exit
    | apply exitsOnce_callCommand
    | apply exitsOnce_outputResponse
    | apply exitsOnce_bind
    | intro _

/-- Every run of `main` keeps the discipline of the termination routine: the process is ended
by `os.Exit` only inside `exit`, which is then entered exactly once, and a run in which `main`
returns has not entered `exit` at all. -/
theorem exitsOnce_main (env : Env) (args : List GoString) : ExitsOnce (main env args) := by
  unfold main handleInterrupt
  repeat' first
    | apply exitsOnce_exit
    | apply exitsOnce_println
    | apply exitsOnce_mainDispatch
    | apply exitsOnce_handleOptions
    | apply exitsOnce_createRequest
    | exact exitsOnce_emit _ rfl
    | apply exitsOnce_pure
    | apply exitsOnce_getDebug
    | apply exitsOnce_bind
    | intro _
    | split

/-- The routine `exit` never returns. -/
theorem neverReturns_exit {α : Type} (env : Env) (code : Int) :
    NeverReturns (exit env code : Proc α) := by
  unfold NeverReturns
  intro w
  rw [exit_eq]
  rfl

/-- A sequence whose continuation never returns never returns. -/
theorem neverReturns_bind {α β : Type} (p : Proc α) (f : α → Proc β)
    (hf : ∀ a, NeverReturns (f a)) : NeverReturns (p >>= f) := by
  unfold NeverReturns at hf ⊢
  intro w
  simp only [Bind.bind, Proc.bind]
  cases hpw : p w with
  | halt s w1 => rfl
  | ret a w1 => exact hf a w1

/-- When `cpu.prof` can be created, `main` never returns: every one of its paths ends in a
call of `exit`. -/
theorem neverReturns_main (env : Env) (args : List GoString)
    (hcpu : env.createCpuProfErr = none) : NeverReturns (main env args) := by
  unfold main mainDispatch
  simp only [hcpu]
  repeat' first
    | apply neverReturns_exit
    | apply neverReturns_bind
    | intro _
    | split

/-- Every run of `main`, from any state: the process is ended by `os.Exit` only inside the
termination routine `exit`, entered exactly once on such a run; the only runs that end
otherwise are those in which `main` returns, they have not entered `exit`, and they occur only
when `os.Create("cpu.prof")` fails. -/
theorem main_exit_discipline (env : Env) (args : List GoString) (w : World) :
    ∃ evs, (main env args w).trace = w.trace ++ evs ∧
      ((main env args w).returned = false → exitCalls evs = 1) ∧
      ((main env args w).returned = true →
        exitCalls evs = 0 ∧ env.createCpuProfErr ≠ none) ∧
      (env.createCpuProfErr = none → (main env args w).returned = false) := by
  have h := exitsOnce_main env args
  unfold ExitsOnce at h
  obtain ⟨evs, h1, h2, h3⟩ := h w
  have h4 : env.createCpuProfErr = none → (main env args w).returned = false := by
    intro hcpu
    have hn := neverReturns_main env args hcpu
    unfold NeverReturns at hn
    exact hn w
  refine ⟨evs, h1, h3, ?_, h4⟩
  intro hr
  refine ⟨h2 hr, ?_⟩
  intro hcpu
  rw [h4 hcpu] at hr
  exact absurd hr (by decide)
end GoIpfs
